import Mathlib

/-!
Shallow embedding of the `mcp-teams-connector` core, for checking its
natural-language specification against the code.

Two subsystems are embedded:

* the availability resolver (`CalendarTools.findMeetingSlots` /
  `CalendarTools.isTimeFree` in the calendar-tools source file), as pure
  functions over times measured in whole minutes;
* the auth subsystem (`GraphAuthProvider` in
  `src/auth/GraphAuthProvider.ts` and `MCPTeamsServer.start` in
  `src/index.ts`), with its fallible I/O modelled by explicit oracle
  parameters (whether a read/write succeeds, whether a callback carries a
  code, and so on).

Time model: a `Nat` counts whole minutes since a local-time epoch that
falls on a Thursday at 00:00 (as the Unix epoch does), so that
`getHours()` and `getDay()` of the JavaScript `Date` API become pure
arithmetic.  Daylight-saving shifts are outside the model, matching the
spec's "local to the input timestamps" reading.
-/

namespace TeamsConnector

/-- `Date.prototype.getHours()` on a time measured in minutes. -/
def hourOfDay (t : Nat) : Nat := t % 1440 / 60

/-- `Date.prototype.getDay()` on a time measured in minutes: 0 is Sunday,
6 is Saturday; minute 0 of the epoch is a Thursday (day 4). -/
def dayOfWeek (t : Nat) : Nat := (t / 1440 + 4) % 7

/-- One busy interval from an attendee's free/busy data
(`busyTime.start.dateTime` / `busyTime.end.dateTime`), in minutes. -/
structure BusyInterval where
  start : Nat
  stop : Nat
  deriving DecidableEq, Repr

/-- One attendee's schedule object as the resolver reads it:
`freeBusyViewInfo` is truthy or falsy, and `schedule.busyTimes || []`
makes an absent busy list behave as the empty list. -/
structure Schedule where
  freeBusyViewInfo : Bool
  busyTimes : List BusyInterval
  deriving DecidableEq, Repr

/-- A candidate slot as pushed by `findMeetingSlots`. -/
structure Slot where
  start : Nat
  stop : Nat
  availableAttendees : Nat
  deriving DecidableEq, Repr

/-- `CalendarTools.isTimeFree(schedule, startTime, duration)`: free when
there is no free/busy data at all, otherwise free iff no busy interval
overlaps `[startTime, startTime + duration)` in the half-open sense
`startTime < busyEnd && endTime > busyStart`. -/
def isTimeFree (schedule : Schedule) (startTime : Nat) (duration : Nat) : Bool :=
  if !schedule.freeBusyViewInfo then
    true
  else
    let endTime := startTime + duration
    schedule.busyTimes.all fun busyTime =>
      !(decide (startTime < busyTime.stop) && decide (endTime > busyTime.start))

/-- The attendee-counting loop of `findMeetingSlots`: how many schedules
report free for the slot starting at `t`. -/
def countFree (schedules : List Schedule) (t : Nat) (duration : Nat) : Nat :=
  schedules.countP fun schedule => isTimeFree schedule t duration

/-- The `while (timeSlot < endDate)` loop of `findMeetingSlots`, collecting
retained slots in tick order.  `nAttendees` is `attendees.length`.  The
loop *breaks* (stops entirely) once a slot end would pass `endDate`,
*continues* past ticks outside business hours or on weekends, and retains
a tick when at least `Math.ceil(nAttendees / 2) = (nAttendees + 1) / 2`
attendees are free. -/
def collectSlots (schedules : List Schedule) (duration : Nat) (endDate : Nat)
    (nAttendees : Nat) (timeSlot : Nat) : List Slot :=
  if _h : timeSlot < endDate then
    if timeSlot + duration > endDate then
      []
    else if hourOfDay timeSlot < 9 ∨ 17 ≤ hourOfDay timeSlot then
      collectSlots schedules duration endDate nAttendees (timeSlot + 30)
    else if dayOfWeek timeSlot = 0 ∨ dayOfWeek timeSlot = 6 then
      collectSlots schedules duration endDate nAttendees (timeSlot + 30)
    else if (nAttendees + 1) / 2 ≤ countFree schedules timeSlot duration then
      { start := timeSlot, stop := timeSlot + duration,
        availableAttendees := countFree schedules timeSlot duration } ::
        collectSlots schedules duration endDate nAttendees (timeSlot + 30)
    else
      collectSlots schedules duration endDate nAttendees (timeSlot + 30)
  else
    []
termination_by endDate - timeSlot
decreasing_by all_goals omega

/-- The JavaScript sort comparator of `findMeetingSlots` as a non-strict
order: `a` may come before `b` iff the comparator is `≤ 0`, i.e. `b` has
strictly fewer available attendees, or the counts tie and `a` starts no
later. -/
def slotLE (a b : Slot) : Bool :=
  if a.availableAttendees = b.availableAttendees then
    decide (a.start ≤ b.start)
  else
    decide (b.availableAttendees < a.availableAttendees)

/-- The same ordering as a proposition, for stating sortedness. -/
def slotBefore (a b : Slot) : Prop :=
  b.availableAttendees < a.availableAttendees ∨
    (a.availableAttendees = b.availableAttendees ∧ a.start ≤ b.start)

/-- `CalendarTools.findMeetingSlots(schedules, duration, startDate, endDate,
attendees)`: collect retained slots over 30-minute ticks, sort by most
available attendees first then by start time, and keep the top 10.  The
comparator is total and (on the slots produced, whose starts are distinct)
antisymmetric, so `mergeSort` computes the same sequence the JavaScript
sort does. -/
def findMeetingSlots (schedules : List Schedule) (duration : Nat)
    (startDate endDate : Nat) (attendees : List String) : List Slot :=
  ((collectSlots schedules duration endDate attendees.length startDate).mergeSort
    slotLE).take 10

/-! ## Auth subsystem (`GraphAuthProvider`, `MCPTeamsServer.start`) -/

/-- The slice of MSAL's `AccountInfo` the provider reads. -/
structure AccountInfo where
  tenantId : String
  username : String
  deriving DecidableEq, Repr

/-- The tenant identifier hard-coded in `validateTenant`. -/
def expectedTenantId : String := "6b104499-c49f-45dc-b3a2-df95efd6eeb4"

/-- The username-domain suffix hard-coded in `validateUser`. -/
def requiredDomain : String := "@timelarp.com"

/-- `GraphAuthProvider.validateTenant()`: false with no current account,
otherwise an exact comparison of the account's tenant id against the
configured constant.  A pure total function of the session — the source
only reads fields and logs, so it cannot throw. -/
def validateTenant (currentAccount : Option AccountInfo) : Bool :=
  match currentAccount with
  | none => false
  | some account => account.tenantId == expectedTenantId

/-- `GraphAuthProvider.validateUser()`: false with no current account,
otherwise `username.endsWith('@timelarp.com')`. -/
def validateUser (currentAccount : Option AccountInfo) : Bool :=
  match currentAccount with
  | none => false
  | some account => account.username.endsWith requiredDomain

/-! ### Token-cache plugin (`cachePlugin` in the MSAL config)

The cache file is modelled as `Option String` (`none` = absent or
unreadable), the in-memory serialized cache as `String`.  `fs.readFile`
and `fs.writeFile` are modelled as `Except`-valued operations; the plugin
hooks wrap them in `try`/`catch` and so return plain (error-free) values:
absorption of cache I/O failure is visible in the return types. -/

/-- `fs.readFile(TOKEN_CACHE_FILE)`: fails exactly when the file is
absent (or unreadable). -/
def readCacheFile (disk : Option String) : Except Unit String :=
  match disk with
  | some data => .ok data
  | none => .error ()

/-- `fs.writeFile(TOKEN_CACHE_FILE, blob)` with an oracle `writeOk` for
whether the filesystem accepts the write. -/
def writeCacheFile (writeOk : Bool) (blob : String) : Except Unit (Option String) :=
  if writeOk then .ok (some blob) else .error ()

/-- `beforeCacheAccess`: try to read the cache file and deserialize it
into the in-memory cache; a read failure is caught and logged, leaving
the in-memory cache as it was (normal first-run outcome). -/
def beforeCacheAccess (disk : Option String) (memCache : String) : String :=
  match readCacheFile disk with
  | .ok data => data
  | .error _ => memCache

/-- `afterCacheAccess`: only when `cacheContext.hasChanged`, serialize and
try to write the cache file; a write failure is caught and logged, leaving
the disk as it was.  Returns the new disk state — never an error. -/
def afterCacheAccess (hasChanged : Bool) (writeOk : Bool) (memCache : String)
    (disk : Option String) : Option String :=
  if hasChanged then
    match writeCacheFile writeOk memCache with
    | .ok newDisk => newDisk
    | .error _ => disk
  else
    disk

/-! ### Interactive login (`GraphAuthProvider.interactiveLogin`)

The express listener on port 3000 is modelled by a `closed` flag; the
promise settlement by `SettleResult`.  Each exit path of the source is
transcribed: the `/redirect` handler with or without a `code` query
parameter and with a succeeding or throwing `acquireTokenByCode`, and the
5-minute `setTimeout` handler. -/

/-- Whether the express server has been `close()`d. -/
structure ListenerState where
  closed : Bool
  deriving DecidableEq, Repr

/-- How the `interactiveLogin` promise settles. -/
inductive SettleResult where
  | resolved
  | rejected
  deriving DecidableEq, Repr

/-- The `/redirect` handler: with no `code`, respond and `reject` (the
server is not closed); with a code, exchange it — on success
`server.close()` then `resolve`, on an exchange error respond and
`reject` (the server is not closed). -/
def redirectCallback (code : Option String) (exchangeOk : Bool)
    (st : ListenerState) : ListenerState × SettleResult :=
  match code with
  | none => (st, .rejected)
  | some _ =>
    if exchangeOk then
      ({ st with closed := true }, .resolved)
    else
      (st, .rejected)

/-- The 5-minute timeout handler: `server.close()` then `reject`. -/
def timeoutHandler (st : ListenerState) : ListenerState × SettleResult :=
  ({ st with closed := true }, .rejected)

/-! ### Session lifecycle and admission (`MCPTeamsServer.start`)

`authenticate()` either reuses the first cached account (hydrated from the
on-disk token cache) or completes an interactive login with a fresh
account, which MSAL also persists to the cache.  `start()` then runs
`validateTenant` and `validateUser`; a failure throws, is caught, and the
process exits — with no `signOut()`, so neither `currentAccount` nor the
on-disk cache is cleared. -/

/-- The auth state visible across the manager and the cache file. -/
structure AuthState where
  currentAccount : Option AccountInfo
  diskCache : Option AccountInfo
  deriving DecidableEq, Repr

/-- Outcome of `MCPTeamsServer.start()`: either the MCP server is running,
or `process.exit(1)` was reached; both carry the auth state left behind. -/
inductive StartOutcome where
  | started : AuthState → StartOutcome
  | exited : AuthState → StartOutcome
  deriving DecidableEq, Repr

/-- The auth state an outcome leaves behind. -/
def stateOf : StartOutcome → AuthState
  | .started s => s
  | .exited s => s

/-- Whether the server came up. -/
def isStarted : StartOutcome → Bool
  | .started _ => true
  | .exited _ => false

/-- `GraphAuthProvider.authenticate()`: with cached accounts, take the
first; otherwise run interactive login yielding `fresh`, which the cache
plugin persists.  Either way a session exists afterwards. -/
def authenticate (fresh : AccountInfo) (s : AuthState) : AuthState :=
  match s.diskCache with
  | some cached => { currentAccount := some cached, diskCache := some cached }
  | none => { currentAccount := some fresh, diskCache := some fresh }

/-- `MCPTeamsServer.start()` after a successful `authenticate()`:
admission checks gate only whether the server starts; a failing check
throws into the `catch`, which exits without discarding the session. -/
def startServer (fresh : AccountInfo) (s : AuthState) : StartOutcome :=
  let s1 := authenticate fresh s
  if validateTenant s1.currentAccount then
    if validateUser s1.currentAccount then
      .started s1
    else
      .exited s1
  else
    .exited s1

/-! ## Structural lemmas about the slot-collection loop -/

/-- Every slot the loop retains starts on a 30-minute tick of the window,
lies inside the window, passes the business-hours and weekday filters,
carries the true free-attendee count, and meets the majority threshold. -/
theorem mem_collectSlots_props (schedules : List Schedule) (duration endDate n : Nat)
    (start : Nat) (s : Slot)
    (hs : s ∈ collectSlots schedules duration endDate n start) :
    s.stop = s.start + duration ∧ s.start < endDate ∧ s.stop ≤ endDate ∧
    9 ≤ hourOfDay s.start ∧ hourOfDay s.start < 17 ∧
    dayOfWeek s.start ≠ 0 ∧ dayOfWeek s.start ≠ 6 ∧
    s.availableAttendees = countFree schedules s.start duration ∧
    (n + 1) / 2 ≤ s.availableAttendees ∧
    ∃ k, s.start = start + 30 * k := by
  rw [collectSlots] at hs
  split at hs
  case isTrue hlt =>
    split at hs
    case isTrue => simp at hs
    case isFalse hend =>
      split at hs
      case isTrue =>
        have ih := mem_collectSlots_props schedules duration endDate n (start + 30) s hs
        obtain ⟨k, hk⟩ := ih.2.2.2.2.2.2.2.2.2
        exact ⟨ih.1, ih.2.1, ih.2.2.1, ih.2.2.2.1, ih.2.2.2.2.1, ih.2.2.2.2.2.1,
          ih.2.2.2.2.2.2.1, ih.2.2.2.2.2.2.2.1, ih.2.2.2.2.2.2.2.2.1,
          k + 1, by omega⟩
      case isFalse hbh =>
        split at hs
        case isTrue =>
          have ih := mem_collectSlots_props schedules duration endDate n (start + 30) s hs
          obtain ⟨k, hk⟩ := ih.2.2.2.2.2.2.2.2.2
          exact ⟨ih.1, ih.2.1, ih.2.2.1, ih.2.2.2.1, ih.2.2.2.2.1, ih.2.2.2.2.2.1,
            ih.2.2.2.2.2.2.1, ih.2.2.2.2.2.2.2.1, ih.2.2.2.2.2.2.2.2.1,
            k + 1, by omega⟩
        case isFalse hwk =>
          split at hs
          case isTrue hth =>
            rcases List.mem_cons.mp hs with heq | hrest
            · subst heq
              exact ⟨rfl, hlt, show start + duration ≤ endDate by omega,
                show 9 ≤ hourOfDay start by omega,
                show hourOfDay start < 17 by omega,
                show dayOfWeek start ≠ 0 by omega,
                show dayOfWeek start ≠ 6 by omega,
                rfl, hth, 0, show start = start + 30 * 0 by omega⟩
            · have ih := mem_collectSlots_props schedules duration endDate n (start + 30) s hrest
              obtain ⟨k, hk⟩ := ih.2.2.2.2.2.2.2.2.2
              exact ⟨ih.1, ih.2.1, ih.2.2.1, ih.2.2.2.1, ih.2.2.2.2.1, ih.2.2.2.2.2.1,
                ih.2.2.2.2.2.2.1, ih.2.2.2.2.2.2.2.1, ih.2.2.2.2.2.2.2.2.1,
                k + 1, by omega⟩
          case isFalse =>
            have ih := mem_collectSlots_props schedules duration endDate n (start + 30) s hs
            obtain ⟨k, hk⟩ := ih.2.2.2.2.2.2.2.2.2
            exact ⟨ih.1, ih.2.1, ih.2.2.1, ih.2.2.2.1, ih.2.2.2.2.1, ih.2.2.2.2.2.1,
              ih.2.2.2.2.2.2.1, ih.2.2.2.2.2.2.2.1, ih.2.2.2.2.2.2.2.2.1,
              k + 1, by omega⟩
  case isFalse => simp at hs
termination_by endDate - start
decreasing_by all_goals omega

/-- Every 30-minute tick that fits inside the window, passes both
structural filters, and meets the majority threshold is reached by the
loop (no earlier tick can break it, since slot ends grow with the tick)
and retained. -/
theorem collectSlots_mem (schedules : List Schedule) (duration endDate n : Nat)
    (start k : Nat)
    (h1 : start + 30 * k < endDate)
    (h2 : start + 30 * k + duration ≤ endDate)
    (h3 : 9 ≤ hourOfDay (start + 30 * k))
    (h4 : hourOfDay (start + 30 * k) < 17)
    (h5 : dayOfWeek (start + 30 * k) ≠ 0)
    (h6 : dayOfWeek (start + 30 * k) ≠ 6)
    (h7 : (n + 1) / 2 ≤ countFree schedules (start + 30 * k) duration) :
    ({ start := start + 30 * k, stop := start + 30 * k + duration,
       availableAttendees := countFree schedules (start + 30 * k) duration } : Slot) ∈
      collectSlots schedules duration endDate n start := by
  induction k generalizing start with
  | zero =>
    simp only [Nat.mul_zero, Nat.add_zero] at h1 h2 h3 h4 h5 h6 h7 ⊢
    rw [collectSlots, dif_pos h1, if_neg (by omega), if_neg (by omega),
      if_neg (by omega), if_pos h7]
    exact List.mem_cons_self _ _
  | succ k ih =>
    have hx : start + 30 * (k + 1) = start + 30 + 30 * k := by ring
    rw [hx] at h1 h2 h3 h4 h5 h6 h7 ⊢
    have hmem := ih (start + 30) h1 h2 h3 h4 h5 h6 h7
    rw [collectSlots, dif_pos (by omega : start < endDate),
      if_neg (by omega : ¬ start + duration > endDate)]
    by_cases hbh : hourOfDay start < 9 ∨ 17 ≤ hourOfDay start
    · rw [if_pos hbh]; exact hmem
    · rw [if_neg hbh]
      by_cases hwk : dayOfWeek start = 0 ∨ dayOfWeek start = 6
      · rw [if_pos hwk]; exact hmem
      · rw [if_neg hwk]
        by_cases hth : (n + 1) / 2 ≤ countFree schedules start duration
        · rw [if_pos hth]; exact List.mem_cons_of_mem _ hmem
        · rw [if_neg hth]; exact hmem

/-- Membership in the final (sorted, truncated) output implies membership
in the raw collection. -/
theorem mem_collect_of_mem_find (schedules : List Schedule) (duration : Nat)
    (startDate endDate : Nat) (attendees : List String) (s : Slot)
    (hs : s ∈ findMeetingSlots schedules duration startDate endDate attendees) :
    s ∈ collectSlots schedules duration endDate attendees.length startDate := by
  unfold findMeetingSlots at hs
  exact List.mem_mergeSort.mp (List.mem_of_mem_take hs)

/-- The sort comparator is transitive. -/
theorem slotLE_trans (a b c : Slot) (h₁ : slotLE a b) (h₂ : slotLE b c) : slotLE a c := by
  simp only [slotLE] at h₁ h₂ ⊢
  split at h₁ <;> split at h₂ <;> split <;> simp_all <;> omega

/-- The sort comparator is total. -/
theorem slotLE_total (a b : Slot) : slotLE a b || slotLE b a := by
  simp only [slotLE]
  split <;> split <;> simp_all
  omega

/-- The Boolean comparator agrees with the stated ordering proposition. -/
theorem slotLE_iff (a b : Slot) : slotLE a b = true ↔ slotBefore a b := by
  simp only [slotLE, slotBefore]
  split <;> rename_i h <;> simp [h]

/-! ## Claim theorems -/

/-- C1: an attendee whose schedule carries no free/busy data, or an empty
busy list, is unconditionally free for every slot, and inserting such an
attendee anywhere in the schedule list raises a slot's free-attendee
count by exactly one — it never reduces it. -/
theorem noSchedule_attendee_free (s : Schedule) (pre post : List Schedule)
    (t duration : Nat) (h : s.freeBusyViewInfo = false ∨ s.busyTimes = []) :
    isTimeFree s t duration = true ∧
    countFree (pre ++ s :: post) t duration = countFree (pre ++ post) t duration + 1 := by
  have hfree : isTimeFree s t duration = true := by
    rcases h with h | h
    · simp [isTimeFree, h]
    · cases hb : s.freeBusyViewInfo <;> simp [isTimeFree, hb, h]
  refine ⟨hfree, ?_⟩
  simp [countFree, List.countP_append, List.countP_cons, hfree]
  omega

/-- Witness for C1 at a concrete no-data attendee whose (ignored) busy
interval covers the whole slot. -/
theorem noSchedule_attendee_free_witness :
    ((⟨false, [⟨0, 100⟩]⟩ : Schedule).freeBusyViewInfo = false ∨
      (⟨false, [⟨0, 100⟩]⟩ : Schedule).busyTimes = []) ∧
    (isTimeFree ⟨false, [⟨0, 100⟩]⟩ 10 30 = true ∧
      countFree ([] ++ ⟨false, [⟨0, 100⟩]⟩ :: [⟨true, [⟨50, 60⟩]⟩]) 10 30 =
        countFree ([] ++ [⟨true, [⟨50, 60⟩]⟩]) 10 30 + 1) :=
  ⟨Or.inl rfl,
    noSchedule_attendee_free ⟨false, [⟨0, 100⟩]⟩ [] [⟨true, [⟨50, 60⟩]⟩] 10 30 (Or.inl rfl)⟩

/-- C4: a 30-minute tick that fits in the window and passes the
business-hours and weekday filters is retained by the collection loop iff
its free-attendee count reaches `ceil(n/2) = (n+1)/2`; with an empty
attendee list the threshold is `0`, so every such tick is retained. -/
theorem slot_retained_iff_majority (schedules : List Schedule)
    (duration startDate endDate : Nat) (attendees : List String) (k : Nat)
    (h1 : startDate + 30 * k < endDate)
    (h2 : startDate + 30 * k + duration ≤ endDate)
    (h3 : 9 ≤ hourOfDay (startDate + 30 * k))
    (h4 : hourOfDay (startDate + 30 * k) < 17)
    (h5 : dayOfWeek (startDate + 30 * k) ≠ 0)
    (h6 : dayOfWeek (startDate + 30 * k) ≠ 6) :
    (({ start := startDate + 30 * k, stop := startDate + 30 * k + duration,
        availableAttendees := countFree schedules (startDate + 30 * k) duration } : Slot) ∈
        collectSlots schedules duration endDate attendees.length startDate ↔
      (attendees.length + 1) / 2 ≤ countFree schedules (startDate + 30 * k) duration) ∧
    (attendees = [] →
      ({ start := startDate + 30 * k, stop := startDate + 30 * k + duration,
         availableAttendees := countFree schedules (startDate + 30 * k) duration } : Slot) ∈
        collectSlots schedules duration endDate attendees.length startDate) := by
  constructor
  · constructor
    · intro hmem
      exact (mem_collectSlots_props schedules duration endDate attendees.length
        startDate _ hmem).2.2.2.2.2.2.2.2.1
    · intro hth
      exact collectSlots_mem schedules duration endDate attendees.length
        startDate k h1 h2 h3 h4 h5 h6 hth
  · intro he
    exact collectSlots_mem schedules duration endDate attendees.length
      startDate k h1 h2 h3 h4 h5 h6 (by simp [he])

/-- Witness for C4: Monday 09:00–10:00 window (epoch minutes), duration
30, no attendees — the tick at 09:00 is retained with threshold `0`. -/
theorem slot_retained_iff_majority_witness :
    (6300 + 30 * 0 < 6360 ∧ 6300 + 30 * 0 + 30 ≤ 6360 ∧
      9 ≤ hourOfDay (6300 + 30 * 0) ∧ hourOfDay (6300 + 30 * 0) < 17 ∧
      dayOfWeek (6300 + 30 * 0) ≠ 0 ∧ dayOfWeek (6300 + 30 * 0) ≠ 6) ∧
    ((({ start := 6300 + 30 * 0, stop := 6300 + 30 * 0 + 30,
         availableAttendees := countFree [] (6300 + 30 * 0) 30 } : Slot) ∈
        collectSlots [] 30 6360 ([] : List String).length 6300 ↔
      (([] : List String).length + 1) / 2 ≤ countFree [] (6300 + 30 * 0) 30) ∧
     (([] : List String) = [] →
      ({ start := 6300 + 30 * 0, stop := 6300 + 30 * 0 + 30,
         availableAttendees := countFree [] (6300 + 30 * 0) 30 } : Slot) ∈
        collectSlots [] 30 6360 ([] : List String).length 6300)) :=
  ⟨⟨by decide, by decide, by decide, by decide, by decide, by decide⟩,
    slot_retained_iff_majority [] 30 6300 6360 [] 0 (by decide) (by decide)
      (by decide) (by decide) (by decide) (by decide)⟩

/-- C5: the resolver's output is sorted by descending available-attendee
count with ties broken by ascending start, and holds at most 10 slots. -/
theorem findMeetingSlots_sorted_truncated (schedules : List Schedule)
    (duration startDate endDate : Nat) (attendees : List String) :
    (findMeetingSlots schedules duration startDate endDate attendees).Pairwise slotBefore ∧
    (findMeetingSlots schedules duration startDate endDate attendees).length ≤ 10 := by
  constructor
  · have hsorted := List.sorted_mergeSort slotLE_trans slotLE_total
      (collectSlots schedules duration endDate attendees.length startDate)
    have htake := List.Pairwise.sublist (List.take_sublist 10 _) hsorted
    exact htake.imp fun h => (slotLE_iff _ _).mp h
  · exact List.length_take_le _ _

/-- C6: every slot in the resolver's output starts inside business hours
on a weekday; and the filter constrains only the start instant — the
Monday 16:45 tick (epoch minute 6765) with a 30-minute duration is
retained although its end, 17:15, has hour-of-day 17. -/
theorem retained_slots_in_business_hours (schedules : List Schedule)
    (duration startDate endDate : Nat) (attendees : List String) :
    (∀ s ∈ findMeetingSlots schedules duration startDate endDate attendees,
      9 ≤ hourOfDay s.start ∧ hourOfDay s.start < 17 ∧
      dayOfWeek s.start ≠ 0 ∧ dayOfWeek s.start ≠ 6) ∧
    (({ start := 6765, stop := 6795, availableAttendees := 0 } : Slot) ∈
        findMeetingSlots [] 30 6765 6825 [] ∧
      17 ≤ hourOfDay 6795) := by
  refine ⟨?_, ?_, by decide⟩
  · intro s hs
    have hp := mem_collectSlots_props schedules duration endDate attendees.length
      startDate s (mem_collect_of_mem_find schedules duration startDate endDate attendees s hs)
    exact ⟨hp.2.2.2.1, hp.2.2.2.2.1, hp.2.2.2.2.2.1, hp.2.2.2.2.2.2.1⟩
  · simp +decide [findMeetingSlots, collectSlots, countFree, isTimeFree,
      List.mergeSort, List.merge, slotLE]

/-- Witness for C6: the universally quantified part instantiated at the
one slot of the 16:45 example. -/
theorem retained_slots_in_business_hours_witness :
    (({ start := 6765, stop := 6795, availableAttendees := 0 } : Slot) ∈
      findMeetingSlots [] 30 6765 6825 []) ∧
    (9 ≤ hourOfDay 6765 ∧ hourOfDay 6765 < 17 ∧
      dayOfWeek 6765 ≠ 0 ∧ dayOfWeek 6765 ≠ 6) := by
  have h := retained_slots_in_business_hours [] 30 6765 6825 []
  exact ⟨h.2.1, h.1 _ h.2.1⟩

/-- C7: no slot in the resolver's output ends after the window end, and a
window strictly shorter than the requested duration yields no slots (the
first tick already breaks the loop). -/
theorem retained_slot_ends_within_window (schedules : List Schedule)
    (duration startDate endDate : Nat) (attendees : List String) :
    (∀ s ∈ findMeetingSlots schedules duration startDate endDate attendees,
      s.stop ≤ endDate) ∧
    (endDate < startDate + duration →
      findMeetingSlots schedules duration startDate endDate attendees = []) := by
  constructor
  · intro s hs
    exact (mem_collectSlots_props schedules duration endDate attendees.length
      startDate s (mem_collect_of_mem_find schedules duration startDate endDate
        attendees s hs)).2.2.1
  · intro h
    unfold findMeetingSlots
    by_cases hlt : startDate < endDate
    · rw [collectSlots, dif_pos hlt, if_pos (show startDate + duration > endDate by omega)]
      simp
    · rw [collectSlots, dif_neg hlt]
      simp

/-- Witness for C7: the 16:45 slot ends within its window, and a
60-minute meeting cannot fit a 30-minute window. -/
theorem retained_slot_ends_within_window_witness :
    (({ start := 6765, stop := 6795, availableAttendees := 0 } : Slot) ∈
        findMeetingSlots [] 30 6765 6825 [] ∧
      ({ start := 6765, stop := 6795, availableAttendees := 0 } : Slot).stop ≤ 6825) ∧
    (6330 < 6300 + 60 ∧ findMeetingSlots [] 60 6300 6330 [] = []) := by
  have hmem : ({ start := 6765, stop := 6795, availableAttendees := 0 } : Slot) ∈
      findMeetingSlots [] 30 6765 6825 [] := by
    simp +decide [findMeetingSlots, collectSlots, countFree, isTimeFree,
      List.mergeSort, List.merge, slotLE]
  exact ⟨⟨hmem, (retained_slot_ends_within_window [] 30 6765 6825 []).1 _ hmem⟩,
    by decide, (retained_slot_ends_within_window [] 60 6300 6330 []).2 (by decide)⟩

/-- C10: a schedule object with a falsy `freeBusyViewInfo` field makes
`isTimeFree` return true for every slot, whatever busy intervals it
carries — while the same busy data with the field set would mark the
slot busy. -/
theorem isTimeFree_true_without_viewInfo (busyTimes : List BusyInterval)
    (t duration : Nat) :
    isTimeFree { freeBusyViewInfo := false, busyTimes := busyTimes } t duration = true ∧
    isTimeFree { freeBusyViewInfo := true, busyTimes := [⟨10, 40⟩] } 10 30 = false :=
  ⟨by simp [isTimeFree], by decide⟩

/-- C2 (code bug): the redirect handler leaves the listener open when it
rejects — both on a callback without an authorization code and on a
token-exchange failure — while it does close the listener on callback
success and on the 5-minute timeout.  So the listener is *not* stopped on
every exit path before the promise settles. -/
theorem listener_leaked_on_rejected_callback :
    ((redirectCallback (some "authcode") false ⟨false⟩).1.closed = false ∧
      (redirectCallback (some "authcode") false ⟨false⟩).2 = .rejected) ∧
    ((redirectCallback none true ⟨false⟩).1.closed = false ∧
      (redirectCallback none true ⟨false⟩).2 = .rejected) ∧
    (redirectCallback (some "authcode") true ⟨false⟩).1.closed = true ∧
    (timeoutHandler ⟨false⟩).1.closed = true := by
  refine ⟨⟨rfl, rfl⟩, ⟨rfl, rfl⟩, rfl, rfl⟩

/-- C3 counterexample: an account from a foreign tenant fails admission,
yet after `start()` exits the session is still held — `currentAccount`
is set, the on-disk token cache still stores the account, and the next
`authenticate()` silently reuses it instead of a fresh login. -/
theorem session_retained_after_failed_admission :
    isStarted (startServer ⟨"attacker-tenant", "mallory@timelarp.com"⟩
      ⟨none, none⟩) = false ∧
    validateTenant (stateOf (startServer ⟨"attacker-tenant", "mallory@timelarp.com"⟩
      ⟨none, none⟩)).currentAccount = false ∧
    (stateOf (startServer ⟨"attacker-tenant", "mallory@timelarp.com"⟩
      ⟨none, none⟩)).currentAccount =
      some ⟨"attacker-tenant", "mallory@timelarp.com"⟩ ∧
    (stateOf (startServer ⟨"attacker-tenant", "mallory@timelarp.com"⟩
      ⟨none, none⟩)).diskCache =
      some ⟨"attacker-tenant", "mallory@timelarp.com"⟩ ∧
    (authenticate ⟨expectedTenantId, "fresh@timelarp.com"⟩
      (stateOf (startServer ⟨"attacker-tenant", "mallory@timelarp.com"⟩
        ⟨none, none⟩))).currentAccount =
      some ⟨"attacker-tenant", "mallory@timelarp.com"⟩ := by
  refine ⟨by decide, by decide, by decide, by decide, by decide⟩

/-- C3 amended: at most one Session is live (the single `currentAccount`
slot); the server starts iff both admission checks pass for the acquired
Session; but a Session exists on every path once acquisition succeeds —
on failed admission it is retained, in memory and in the on-disk cache,
rather than discarded. -/
theorem admission_gates_start_not_session (fresh : AccountInfo) (s : AuthState) :
    (isStarted (startServer fresh s) = true ↔
      (validateTenant (stateOf (startServer fresh s)).currentAccount = true ∧
        validateUser (stateOf (startServer fresh s)).currentAccount = true)) ∧
    (stateOf (startServer fresh s)).currentAccount ≠ none ∧
    (stateOf (startServer fresh s)).currentAccount = (stateOf (startServer fresh s)).diskCache := by
  rcases s with ⟨ca, dc⟩
  cases dc with
  | none =>
    by_cases ht : validateTenant (some fresh) <;>
      by_cases hu : validateUser (some fresh) <;>
        simp [startServer, authenticate, stateOf, isStarted, ht, hu]
  | some cached =>
    by_cases ht : validateTenant (some cached) <;>
      by_cases hu : validateUser (some cached) <;>
        simp [startServer, authenticate, stateOf, isStarted, ht, hu]

/-- C8: with no session both validators return false (and, being total
functions, cannot throw); with a session whose tenant differs from the
configured constant, `validateTenant` is false while `validateUser`
depends only on the username, not on the tenant. -/
theorem validators_fail_closed (a b₁ b₂ : AccountInfo)
    (hne : a.tenantId ≠ expectedTenantId) (husr : b₁.username = b₂.username) :
    validateTenant none = false ∧
    validateUser none = false ∧
    validateTenant (some a) = false ∧
    validateUser (some b₁) = validateUser (some b₂) := by
  refine ⟨rfl, rfl, ?_, ?_⟩
  · simp [validateTenant, hne]
  · simp [validateUser, husr]

/-- Witness for C8: a session from another tenant but with an in-domain
username. -/
theorem validators_fail_closed_witness :
    ((⟨"other-tenant", "user@timelarp.com"⟩ : AccountInfo).tenantId ≠ expectedTenantId ∧
      (⟨"other-tenant", "user@timelarp.com"⟩ : AccountInfo).username =
        (⟨expectedTenantId, "user@timelarp.com"⟩ : AccountInfo).username) ∧
    (validateTenant none = false ∧
      validateUser none = false ∧
      validateTenant (some ⟨"other-tenant", "user@timelarp.com"⟩) = false ∧
      validateUser (some ⟨"other-tenant", "user@timelarp.com"⟩) =
        validateUser (some ⟨expectedTenantId, "user@timelarp.com"⟩)) :=
  ⟨⟨by decide, rfl⟩,
    validators_fail_closed ⟨"other-tenant", "user@timelarp.com"⟩
      ⟨"other-tenant", "user@timelarp.com"⟩ ⟨expectedTenantId, "user@timelarp.com"⟩
      (by decide) rfl⟩

/-- C9: the cache plugin writes the on-disk blob only when the in-memory
cache reports a change; a failed write leaves the disk as it was and (by
the hook's plain, non-`Except` return type) propagates no failure; a
successful write stores the serialized cache; a missing file on load
leaves the in-memory cache untouched as a normal outcome. -/
theorem cache_plugin_write_discipline (writeOk : Bool) (memCache : String)
    (disk : Option String) :
    afterCacheAccess false writeOk memCache disk = disk ∧
    afterCacheAccess true false memCache disk = disk ∧
    afterCacheAccess true true memCache disk = some memCache ∧
    beforeCacheAccess none memCache = memCache := by
  refine ⟨rfl, ?_, ?_, rfl⟩ <;> simp [afterCacheAccess, writeCacheFile]

end TeamsConnector
